import Mathlib

/-!
Verification of the Telegram group parser frontend (`frontend/src/components/
TelegramParser.tsx`, `TokenPoolStatus.tsx`) against its specification.

The enumeration driver (`fetchAllMembers` / `attemptFetch`) and the display
pagination (`getCurrentPageMembers`) are embedded from the TypeScript source.
The external HTTP interaction is modelled by a script: a list of results,
consumed one per request; running out of script is a network failure.
JavaScript float arithmetic in the progress computation is modelled by exact
rational arithmetic with round-half-up (the behaviour of `Math.round` on the
non-negative values arising here); division by zero in JS yields Infinity,
which `Math.min(_, 100)` clamps to 100, modelled by the `total = 0` branch.

The backend credential pool is not part of the source tree; it is modelled
from the specification where claims require it (definitions marked
`Modelled from the spec:`).
-/

namespace TgParse

/-- `batchSize = 50` in `fetchAllMembers`. -/
def batchSize : Nat := 50

/-- `maxRetries = 3` in `fetchAllMembers`: the number of *retries* after the
initial attempt. -/
def maxRetries : Nat := 3

/-- `MEMBERS_PER_PAGE = 50` in `TelegramParser`. -/
def MEMBERS_PER_PAGE : Nat := 50

/-- The 2000 ms delay before each retry (`setTimeout(resolve, 2000)`). -/
def retryDelayMs : Nat := 2000

/-- `MemberInfo` from `TelegramParser.tsx`. -/
structure MemberInfo where
  user_id : Int
  username : Option String
  first_name : Option String
  last_name : Option String
  is_premium : Option Bool
  can_message : Bool
  is_admin : Bool
  admin_title : Option String
deriving DecidableEq

/-- `GroupInfo` from `TelegramParser.tsx`. -/
structure GroupInfo where
  group_id : String
  name : String
  member_count : Option Nat
  description : Option String
deriving DecidableEq

/-- `MembersResponse` from `TelegramParser.tsx`: body of a
`/api/group-members` response. -/
structure MembersResponse where
  success : Bool
  data : List MemberInfo
  error : Option String
  total_count : Option Nat
  has_more : Bool
deriving DecidableEq

/-- One result of an HTTP GET to `/api/group-members`: either a 2xx JSON body
or an axios-level failure carrying `err.message` /
`err.response?.data?.error`. -/
inductive FetchResult where
  | ok (resp : MembersResponse)
  | netErr (msg : String)
deriving DecidableEq

/-- JavaScript `a || d` on an optional string: the default is used when the
string is absent or empty (empty strings are falsy). -/
def jsOr : Option String → String → String
  | none, d => d
  | some s, d => if s = "" then d else s

/-- `needle` begins `hay` (character lists). -/
def startsWithChars : List Char → List Char → Bool
  | [], _ => true
  | _ :: _, [] => false
  | a :: as, b :: bs => a == b && startsWithChars as bs

/-- `needle` occurs somewhere in the character list. -/
def containsChars (needle : List Char) : List Char → Bool
  | [] => startsWithChars needle []
  | c :: rest => startsWithChars needle (c :: rest) || containsChars needle rest

/-- JavaScript `hay.includes(needle)`. -/
def strContains (hay needle : String) : Bool :=
  containsChars needle.data hay.data

/-- The marker tested by `errorMessage.includes('Could not find the input
entity')`. -/
def entityNotFoundMarker : String := "Could not find the input entity"

/-- The admin-rights message set for entity-not-found failures. -/
def adminRightsMessage : String :=
  "Unable to access the group. Please make sure the bot is a member of the group and has admin rights."

/-- The suffix appended to other final error messages. -/
def retrySuffix : String := ". Please try again later."

/-- Final error classification in `attemptFetch` after the retry budget is
spent. -/
def classifyError (msg : String) : String :=
  if strContains msg entityNotFoundMarker then adminRightsMessage
  else msg ++ retrySuffix

/-- `Math.min(Math.round((len / total) * 100), 100)`. For `total = 0` JS
produces Infinity, clamped to 100 by the outer min; for `total > 0` the
value is round-half-up of the rational `100 * len / total`. -/
def progressUpdate (len total : Nat) : Nat :=
  if total = 0 then 100 else min ((200 * len + total) / (2 * total)) 100

/-- Outcome of one `attemptFetch` pass: either the full member list of that
pass, or the message of the error it threw. -/
inductive PassOut where
  | ok (members : List MemberInfo)
  | fail (msg : String)
deriving DecidableEq

/-- Result of one `attemptFetch` pass. `trace` records the
`setFetchProgress` values in order; `pages` the member-page requests as
(offset, returned data); `rest` the unconsumed script; `requests` the number
of HTTP GETs issued. -/
structure PassResult where
  out : PassOut
  trace : List Nat
  pages : List (Nat × List MemberInfo)
  rest : List FetchResult
  requests : Nat
deriving DecidableEq

/-- Message of an axios failure with no response (script exhausted). -/
def netFailMsg : String := "Network Error"

/-- The `while (hasMore)` loop of `attemptFetch`: request pages at
`offset, offset + 50, ...`, appending each non-empty page to `collected`;
an empty page or `has_more = false` ends the loop; a non-2xx or thrown
error aborts the pass. -/
def fetchPages (total : Nat) (collected : List MemberInfo) (offset : Nat)
    (script : List FetchResult) : PassResult :=
  match script with
  | [] =>
    { out := .fail netFailMsg, trace := [], pages := [], rest := [], requests := 0 }
  | .netErr m :: rest =>
    { out := .fail (jsOr (some m) "Failed to fetch members"), trace := [],
      pages := [], rest := rest, requests := 1 }
  | .ok r :: rest =>
    if r.success then
      if 0 < r.data.length then
        if r.has_more then
          (let k := fetchPages total (collected ++ r.data) (offset + batchSize) rest
           { out := k.out,
             trace := progressUpdate (collected ++ r.data).length total :: k.trace,
             pages := (offset, r.data) :: k.pages,
             rest := k.rest,
             requests := k.requests + 1 })
        else
          { out := .ok (collected ++ r.data),
            trace := [progressUpdate (collected ++ r.data).length total],
            pages := [(offset, r.data)], rest := rest, requests := 1 }
      else
        { out := .ok collected, trace := [100], pages := [(offset, r.data)],
          rest := rest, requests := 1 }
    else
      { out := .fail (jsOr r.error "Failed to fetch members"), trace := [],
        pages := [], rest := rest, requests := 1 }

/-- One pass of `attemptFetch`: the initial probe request (`offset 0,
limit 1`) yields `totalMembers = total_count || 0`, then the page loop runs
from `offset = 0` with an empty `collected`. -/
def attemptFetch (script : List FetchResult) : PassResult :=
  match script with
  | [] =>
    { out := .fail netFailMsg, trace := [], pages := [], rest := [], requests := 0 }
  | .netErr m :: rest =>
    { out := .fail (jsOr (some m) "Failed to fetch members"), trace := [],
      pages := [], rest := rest, requests := 1 }
  | .ok r :: rest =>
    if r.success then
      (let k := fetchPages (r.total_count.getD 0) [] 0 rest
       { k with requests := k.requests + 1 })
    else
      { out := .fail (jsOr r.error "Failed to get member count"), trace := [],
        pages := [], rest := rest, requests := 1 }

/-- Observable result of a whole `fetchAllMembers` job. `members` is the
final `allMembers` state, `error` the final error (if any), `attempts` the
number of `attemptFetch` passes executed, `delays` the waits taken before
retries, `trace` every `setFetchProgress` value in order, `pages` the member
pages of the pass that produced `members`. -/
structure JobResult where
  members : List MemberInfo
  error : Option String
  attempts : Nat
  delays : List Nat
  trace : List Nat
  requests : Nat
  pages : List (Nat × List MemberInfo)
deriving DecidableEq

/-- The retry recursion of `attemptFetch`: on failure, while
`retryCount < maxRetries`, wait 2000 ms and re-run the whole pass from
scratch; `retriesLeft = maxRetries - retryCount`. Exhaustion classifies the
last failure message and delivers an empty member list. -/
def attemptFetchRetry : Nat → List FetchResult → JobResult
  | 0, script =>
    match (attemptFetch script).out with
    | .ok m =>
      { members := m, error := none, attempts := 1, delays := [],
        trace := (attemptFetch script).trace,
        requests := (attemptFetch script).requests,
        pages := (attemptFetch script).pages }
    | .fail msg =>
      { members := [], error := some (classifyError msg), attempts := 1,
        delays := [], trace := (attemptFetch script).trace,
        requests := (attemptFetch script).requests,
        pages := (attemptFetch script).pages }
  | n + 1, script =>
    match (attemptFetch script).out with
    | .ok m =>
      { members := m, error := none, attempts := 1, delays := [],
        trace := (attemptFetch script).trace,
        requests := (attemptFetch script).requests,
        pages := (attemptFetch script).pages }
    | .fail _ =>
      (let r := attemptFetchRetry n (attemptFetch script).rest
       { members := r.members, error := r.error, attempts := r.attempts + 1,
         delays := retryDelayMs :: r.delays,
         trace := (attemptFetch script).trace ++ r.trace,
         requests := (attemptFetch script).requests + r.requests,
         pages := r.pages })

/-- `fetchAllMembers`: `setFetchProgress(0)`, then the bounded retry loop
with `maxRetries = 3`; on overall failure `setAllMembers([])`. -/
def fetchAllMembers (script : List FetchResult) : JobResult :=
  let r := attemptFetchRetry maxRetries script
  { r with trace := 0 :: r.trace }

/-- `getCurrentPageMembers`: `allMembers.slice(startIndex, startIndex + 50)`
with `startIndex = (currentPage - 1) * MEMBERS_PER_PAGE`. -/
def getCurrentPageMembers (currentPage : Nat) (allMembers : List MemberInfo) :
    List MemberInfo :=
  (allMembers.drop ((currentPage - 1) * MEMBERS_PER_PAGE)).take MEMBERS_PER_PAGE

/-- `Math.ceil(allMembers.length / MEMBERS_PER_PAGE)`: the display page
count used by the `Pagination` control. -/
def numDisplayPages (allMembers : List MemberInfo) : Nat :=
  (allMembers.length + (MEMBERS_PER_PAGE - 1)) / MEMBERS_PER_PAGE

/-- Body of a `/api/parse-group` response consumed by `handleSubmit`. -/
structure ParseGroupResponse where
  success : Bool
  data : Option GroupInfo
  error : Option String
deriving DecidableEq

/-- Observable result of `handleSubmit`: the final error and group info,
how many `/api/group-members` requests were issued, and the delivered
member list. -/
structure SubmitResult where
  error : Option String
  groupInfo : Option GroupInfo
  memberRequests : Nat
  members : List MemberInfo
deriving DecidableEq

/-- `handleSubmit`: on `success` store the group info and run
`fetchAllMembers`; otherwise set the error and never call the member
endpoint. -/
def handleSubmit (resp : ParseGroupResponse) (script : List FetchResult) :
    SubmitResult :=
  if resp.success then
    (let job := fetchAllMembers script
     { error := job.error, groupInfo := resp.data,
       memberRequests := job.requests, members := job.members })
  else
    { error := some (jsOr resp.error "Failed to parse group"),
      groupInfo := none, memberRequests := 0, members := [] }

/-- Outcome of resolving a group reference on the backend. -/
inductive ResolveOutcome where
  | ok (g : GroupInfo)
  | entityNotFound
  | otherError (msg : String)
deriving DecidableEq

/-- Modelled from the spec: the backend `/api/parse-group` endpoint
(`StartEnumeration`) is not in the source tree. Per the spec, resolving the
group reference to an `EntityNotFound` failure makes the request fail with
the message instructing that the bot must be a member with admin rights. -/
def parseGroupEndpoint : ResolveOutcome → ParseGroupResponse
  | .ok g => { success := true, data := some g, error := none }
  | .entityNotFound =>
    { success := false, data := none, error := some adminRightsMessage }
  | .otherError m => { success := false, data := none, error := some m }

/-- Modelled from the spec: the backend computation of the `has_more` field
is not in the source tree. Per the spec,
`has_more = (page length == batch_size) AND (offset < total_count, if
known)`, where the offset compared is the advanced offset. -/
def hasMoreSpec (pageLen advancedOffset : Nat) (total : Option Nat) : Bool :=
  (pageLen == batchSize) &&
    (match total with
     | none => true
     | some t => decide (advancedOffset < t))

/-! ### Credential pool, modelled from the spec

The `CredentialPool`, `RateLimitClassifier` outcome handling and
`PoolStatusReporter` live in the backend, which is not in the source tree;
only the wire shape (`TokenStatus` / `PoolStatus` in `TokenPoolStatus.tsx`)
is. The definitions below are modelled from the specification. -/

/-- Credential status: `status ∈ \x7bAvailable, Cooldown\x7d`. -/
inductive CredStatus where
  | available
  | cooldown
deriving DecidableEq

/-- Modelled from the spec: a credential record
`\x7bid, status, error_count, cooldown_until\x7d` (the secret is omitted: no
claim mentions it). Timestamps are naturals. -/
structure Credential where
  id : String
  status : CredStatus
  error_count : Nat
  cooldown_until : Option Nat
deriving DecidableEq

/-- Modelled from the spec: lazy cooldown expiry — a credential whose
`cooldown_until` has passed (`≤ now`) is treated as `Available` before any
selection or read. -/
def applyExpiry (now : Nat) (c : Credential) : Credential :=
  match c.cooldown_until with
  | some t =>
    if t ≤ now then { c with status := .available, cooldown_until := none }
    else c
  | none => c

/-- Release outcomes: `Success`, `RateLimited(retry_after)` (hint optional),
`Error`. -/
inductive ReleaseOutcome where
  | success
  | rateLimited (retryAfter : Option Nat)
  | error
deriving DecidableEq

/-- Modelled from the spec: the fixed error threshold beyond which repeated
`Error` releases move a credential to cooldown (value unspecified there). -/
def errorThreshold : Nat := 3

/-- Modelled from the spec: the default backoff unit, scaled by
`error_count` when the platform gives no `retry_after` hint (value
unspecified there). -/
def defaultBackoff : Nat := 60

/-- Modelled from the spec: `release(credential, outcome)` applied to one
credential. `Success` resets it to `Available` with `error_count = 0`;
`RateLimited` puts it in cooldown until `now + retry_after` (or a scaled
default backoff); `Error` increments `error_count` and cools the credential
down only past the threshold. -/
def releaseCred (now : Nat) (o : ReleaseOutcome) (c : Credential) : Credential :=
  match o with
  | .success =>
    { c with status := .available, error_count := 0, cooldown_until := none }
  | .rateLimited retryAfter =>
    (let wait := retryAfter.getD (defaultBackoff * (c.error_count + 1))
     { c with
       status := .cooldown, error_count := c.error_count + 1,
       cooldown_until := some (now + wait) })
  | .error =>
    (let ec := c.error_count + 1
     if errorThreshold < ec then
       { c with
         status := .cooldown, error_count := ec,
         cooldown_until := some (now + defaultBackoff * ec) }
     else
       { c with error_count := ec })

/-- Modelled from the spec: `release` on the pool updates the matching
credential. -/
def releasePool (now : Nat) (cid : String) (o : ReleaseOutcome)
    (pool : List Credential) : List Credential :=
  pool.map (fun c => if c.id == cid then releaseCred now o c else c)

/-- Modelled from the spec: `snapshot()` — every credential's state with
cooldown expiry already applied. -/
def snapshot (now : Nat) (pool : List Credential) : List Credential :=
  pool.map (applyExpiry now)

/-- Modelled from the spec: `acquire()` evaluates lazy expiry first, then
selects a credential currently `Available` (the first, as the round-robin
representative); `none` means `NoCredentialAvailable`. -/
def acquire (now : Nat) (pool : List Credential) :
    Option Credential × List Credential :=
  (let p := snapshot now pool
   (p.find? (fun c => c.status == .available), p))

/-- The `PoolStatus` wire shape from `TokenPoolStatus.tsx`. -/
structure PoolStatus where
  total_tokens : Nat
  active_tokens : Nat
  tokens : List Credential
deriving DecidableEq

/-- Modelled from the spec: `GetPoolStatus()` — `total_tokens` is the
configured count, `active_tokens` counts credentials `Available` after lazy
expiry, `tokens` is the snapshot verbatim. -/
def getPoolStatus (now : Nat) (pool : List Credential) : PoolStatus :=
  { total_tokens := pool.length,
    active_tokens := (snapshot now pool).countP (fun c => c.status == .available),
    tokens := snapshot now pool }

/-- Well-formedness of a credential record: the stored status agrees with
`cooldown_until` (`Available` has no pending cooldown, `Cooldown` has
one). -/
def CredWF (c : Credential) : Prop :=
  (c.status = .available → c.cooldown_until = none) ∧
  (c.status = .cooldown → c.cooldown_until ≠ none)

instance (c : Credential) : Decidable (CredWF c) := by
  unfold CredWF
  infer_instance

/-! ### Concrete scenario data -/

/-- A member record with a given id and defaulted optional fields. -/
def mkMember (i : Nat) : MemberInfo :=
  { user_id := (i : Int), username := none, first_name := none,
    last_name := none, is_premium := none, can_message := false,
    is_admin := false, admin_title := none }

/-- `n` consecutive members starting at id `start`. -/
def memberBlock (start n : Nat) : List MemberInfo :=
  (List.range n).map (fun j => mkMember (start + j))

/-- A successful page response. -/
def okPage (d : List MemberInfo) (total : Option Nat) (more : Bool) :
    FetchResult :=
  .ok { success := true, data := d, error := none, total_count := total,
        has_more := more }

/-- Server script for a 120-member group served in pages of 50: probe, then
pages of 50, 50 and 20 members. -/
def script120 : List FetchResult :=
  [ okPage [mkMember 0] (some 120) true,
    okPage (memberBlock 0 50) (some 120) true,
    okPage (memberBlock 50 50) (some 120) true,
    okPage (memberBlock 100 20) (some 120) false ]

/-- Server script on which every request fails: each attempt consumes one
network error at its probe request. -/
def scriptFail4 : List FetchResult :=
  [ .netErr "E1", .netErr "E2", .netErr "E3", .netErr "E4" ]

/-- Server script where attempt 1 collects a page and then fails, attempt 2
fails at its probe, and attempt 3 succeeds with a different member set. -/
def scriptRecover : List FetchResult :=
  [ okPage [mkMember 0] (some 100) true,
    okPage (memberBlock 0 50) (some 100) true,
    .netErr "E1",
    .netErr "E2",
    okPage [mkMember 500] (some 1) true,
    okPage [mkMember 7] (some 1) false ]

/-- A credential whose cooldown lies in the past at time 100. -/
def credPastA : Credential :=
  { id := "t1", status := .cooldown, error_count := 2, cooldown_until := some 40 }

/-- A second credential whose cooldown lies in the past at time 100. -/
def credPastB : Credential :=
  { id := "t2", status := .cooldown, error_count := 1, cooldown_until := some 50 }

/-! ### Helper lemmas -/

lemma progressUpdate_le (len total : Nat) : progressUpdate len total ≤ 100 := by
  unfold progressUpdate
  split
  · exact le_refl 100
  · exact min_le_right _ _

lemma fetchPages_trace_le (script : List FetchResult) :
    ∀ (total : Nat) (collected : List MemberInfo) (offset p : Nat),
      p ∈ (fetchPages total collected offset script).trace → p ≤ 100 := by
  induction script with
  | nil =>
    intro total c o p hp
    simp [fetchPages] at hp
  | cons hd tl ih =>
    intro total c o p hp
    cases hd with
    | netErr m => simp [fetchPages] at hp
    | ok r =>
      cases hs : r.success with
      | false => simp [fetchPages, hs] at hp
      | true =>
        by_cases hd0 : 0 < r.data.length
        · cases hm : r.has_more with
          | true =>
            simp only [fetchPages, hs, hd0, hm, if_true, List.mem_cons] at hp
            rcases hp with hp | hp
            · exact hp ▸ progressUpdate_le _ _
            · exact ih total _ _ p hp
          | false =>
            simp only [fetchPages, hs, hd0, hm, if_true, Bool.false_eq_true,
              if_false, List.mem_singleton] at hp
            exact hp ▸ progressUpdate_le _ _
        · simp only [fetchPages, hs, hd0, if_true, if_false,
            List.mem_singleton] at hp
          omega

lemma attemptFetch_trace_le (script : List FetchResult) :
    ∀ p, p ∈ (attemptFetch script).trace → p ≤ 100 := by
  intro p hp
  cases script with
  | nil => simp [attemptFetch] at hp
  | cons hd tl =>
    cases hd with
    | netErr m => simp [attemptFetch] at hp
    | ok r =>
      cases hs : r.success with
      | false => simp [attemptFetch, hs] at hp
      | true =>
        simp only [attemptFetch, hs, if_true] at hp
        exact fetchPages_trace_le tl _ _ _ p hp

lemma attemptFetchRetry_trace_le :
    ∀ (n : Nat) (script : List FetchResult) (p : Nat),
      p ∈ (attemptFetchRetry n script).trace → p ≤ 100 := by
  intro n
  induction n with
  | zero =>
    intro script p hp
    cases ho : (attemptFetch script).out with
    | ok m =>
      simp only [attemptFetchRetry, ho] at hp
      exact attemptFetch_trace_le script p hp
    | fail msg =>
      simp only [attemptFetchRetry, ho] at hp
      exact attemptFetch_trace_le script p hp
  | succ k ih =>
    intro script p hp
    cases ho : (attemptFetch script).out with
    | ok m =>
      simp only [attemptFetchRetry, ho] at hp
      exact attemptFetch_trace_le script p hp
    | fail msg =>
      simp only [attemptFetchRetry, ho, List.mem_append] at hp
      rcases hp with hp | hp
      · exact attemptFetch_trace_le script p hp
      · exact ih _ p hp

lemma attemptFetchRetry_attempts_le :
    ∀ (n : Nat) (script : List FetchResult),
      (attemptFetchRetry n script).attempts ≤ n + 1 := by
  intro n
  induction n with
  | zero =>
    intro script
    cases ho : (attemptFetch script).out with
    | ok m => simp [attemptFetchRetry, ho]
    | fail msg => simp [attemptFetchRetry, ho]
  | succ k ih =>
    intro script
    cases ho : (attemptFetch script).out with
    | ok m => simp [attemptFetchRetry, ho]
    | fail msg =>
      simp only [attemptFetchRetry, ho]
      have := ih (attemptFetch script).rest
      omega

lemma attemptFetchRetry_attempts_pos :
    ∀ (n : Nat) (script : List FetchResult),
      1 ≤ (attemptFetchRetry n script).attempts := by
  intro n
  induction n with
  | zero =>
    intro script
    cases ho : (attemptFetch script).out with
    | ok m => simp [attemptFetchRetry, ho]
    | fail msg => simp [attemptFetchRetry, ho]
  | succ k ih =>
    intro script
    cases ho : (attemptFetch script).out with
    | ok m => simp [attemptFetchRetry, ho]
    | fail msg => simp only [attemptFetchRetry, ho]; omega

lemma attemptFetchRetry_delays :
    ∀ (n : Nat) (script : List FetchResult),
      (attemptFetchRetry n script).delays =
        List.replicate ((attemptFetchRetry n script).attempts - 1) retryDelayMs := by
  intro n
  induction n with
  | zero =>
    intro script
    cases ho : (attemptFetch script).out with
    | ok m => simp [attemptFetchRetry, ho]
    | fail msg => simp [attemptFetchRetry, ho]
  | succ k ih =>
    intro script
    cases ho : (attemptFetch script).out with
    | ok m => simp [attemptFetchRetry, ho]
    | fail msg =>
      simp only [attemptFetchRetry, ho]
      have h1 := attemptFetchRetry_attempts_pos k (attemptFetch script).rest
      have h2 := ih (attemptFetch script).rest
      have h3 : (attemptFetchRetry k (attemptFetch script).rest).attempts + 1 - 1 =
          ((attemptFetchRetry k (attemptFetch script).rest).attempts - 1) + 1 := by
        omega
      rw [h2, h3, List.replicate_succ]

lemma fetchPages_rest_suffix (script : List FetchResult) :
    ∀ (total : Nat) (collected : List MemberInfo) (offset : Nat),
      (fetchPages total collected offset script).rest.IsSuffix script := by
  induction script with
  | nil =>
    intro total c o
    simp [fetchPages]
  | cons hd tl ih =>
    intro total c o
    cases hd with
    | netErr m => simp only [fetchPages]; exact List.suffix_cons _ _
    | ok r =>
      cases hs : r.success with
      | false => simp only [fetchPages, hs]; exact List.suffix_cons _ _
      | true =>
        by_cases hd0 : 0 < r.data.length
        · cases hm : r.has_more with
          | true =>
            simp only [fetchPages, hs, hd0, hm, if_true]
            exact (ih total _ _).trans (List.suffix_cons _ _)
          | false =>
            simp only [fetchPages, hs, hd0, hm, if_true, Bool.false_eq_true,
              if_false]
            exact List.suffix_cons _ _
        · simp only [fetchPages, hs, hd0, if_true, if_false]
          exact List.suffix_cons _ _

lemma attemptFetch_rest_suffix (script : List FetchResult) :
    (attemptFetch script).rest.IsSuffix script := by
  cases script with
  | nil => simp [attemptFetch]
  | cons hd tl =>
    cases hd with
    | netErr m => simp only [attemptFetch]; exact List.suffix_cons _ _
    | ok r =>
      cases hs : r.success with
      | false => simp only [attemptFetch, hs]; exact List.suffix_cons _ _
      | true =>
        simp only [attemptFetch, hs, if_true]
        exact (fetchPages_rest_suffix tl _ _ _).trans (List.suffix_cons _ _)

lemma classifyError_ne_empty (msg : String) : classifyError msg ≠ "" := by
  unfold classifyError
  split
  · decide
  · intro h
    have h2 : msg.data ++ retrySuffix.data = ([] : List Char) :=
      congrArg String.data h
    have h3 := List.append_eq_nil.mp h2
    exact absurd h3.2 (by decide)

lemma attemptFetchRetry_allOrNothing :
    ∀ (n : Nat) (script : List FetchResult),
      (attemptFetchRetry n script).error = none ∨
      ∃ m, (attemptFetchRetry n script).error = some m ∧ m ≠ "" ∧
        (attemptFetchRetry n script).members = [] := by
  intro n
  induction n with
  | zero =>
    intro script
    cases ho : (attemptFetch script).out with
    | ok m => left; simp [attemptFetchRetry, ho]
    | fail msg =>
      right
      exact ⟨classifyError msg, by simp [attemptFetchRetry, ho],
        classifyError_ne_empty msg, by simp [attemptFetchRetry, ho]⟩
  | succ k ih =>
    intro script
    cases ho : (attemptFetch script).out with
    | ok m => left; simp [attemptFetchRetry, ho]
    | fail msg =>
      rcases ih (attemptFetch script).rest with h | ⟨m, hm, hne, hmem⟩
      · left; simp [attemptFetchRetry, ho, h]
      · right
        exact ⟨m, by simp [attemptFetchRetry, ho, hm],
          hne, by simp [attemptFetchRetry, ho, hmem]⟩

lemma fetchPages_ok_spec (script : List FetchResult) :
    ∀ (total : Nat) (collected : List MemberInfo) (offset : Nat)
      (m : List MemberInfo),
      (fetchPages total collected offset script).out = .ok m →
      m = collected ++
        ((fetchPages total collected offset script).pages.map Prod.snd).flatten ∧
      (fetchPages total collected offset script).pages.map Prod.fst =
        (List.range (fetchPages total collected offset script).pages.length).map
          (fun i => offset + batchSize * i) := by
  induction script with
  | nil =>
    intro total c o m hm
    simp [fetchPages] at hm
  | cons hd tl ih =>
    intro total c o m hm
    cases hd with
    | netErr s => simp [fetchPages] at hm
    | ok r =>
      cases hs : r.success with
      | false => simp [fetchPages, hs] at hm
      | true =>
        by_cases hd0 : 0 < r.data.length
        · cases hmore : r.has_more with
          | true =>
            simp only [fetchPages, hs, hd0, hmore, if_true] at hm ⊢
            obtain ⟨h1, h2⟩ := ih total (c ++ r.data) (o + batchSize) m hm
            constructor
            · rw [h1]
              simp [List.append_assoc]
            · simp only [List.map_cons, List.length_cons, h2,
                List.range_succ_eq_map, List.map_map]
              rw [show o + batchSize * 0 = o from by omega]
              refine congrArg (fun l => o :: l) ?_
              refine List.map_congr_left (fun i _ => ?_)
              show o + batchSize + batchSize * i = o + batchSize * (i + 1)
              have h : batchSize * (i + 1) = batchSize * i + batchSize :=
                Nat.mul_succ batchSize i
              omega
          | false =>
            simp only [fetchPages, hs, hd0, hmore, if_true, Bool.false_eq_true,
              if_false, PassOut.ok.injEq] at hm ⊢
            subst hm
            simp [List.range_succ]
        · have hlen : r.data.length = 0 := by omega
          have hnil : r.data = [] := List.length_eq_zero.mp hlen
          simp only [fetchPages, hs, hd0, if_true, if_false,
            PassOut.ok.injEq] at hm ⊢
          subst hm
          simp [hnil, List.range_succ]

lemma attemptFetch_ok_spec (script : List FetchResult)
    (m : List MemberInfo) (h : (attemptFetch script).out = .ok m) :
    m = ((attemptFetch script).pages.map Prod.snd).flatten ∧
    (attemptFetch script).pages.map Prod.fst =
      (List.range (attemptFetch script).pages.length).map
        (fun i => batchSize * i) := by
  cases script with
  | nil => simp [attemptFetch] at h
  | cons hd tl =>
    cases hd with
    | netErr s => simp [attemptFetch] at h
    | ok r =>
      cases hs : r.success with
      | false => simp [attemptFetch, hs] at h
      | true =>
        simp only [attemptFetch, hs, if_true] at h ⊢
        obtain ⟨h1, h2⟩ := fetchPages_ok_spec tl (r.total_count.getD 0) [] 0 m h
        refine ⟨by simpa using h1, ?_⟩
        rw [h2]
        apply List.map_congr_left
        intro i _
        omega

lemma attemptFetchRetry_ok_src :
    ∀ (n : Nat) (script : List FetchResult),
      (attemptFetchRetry n script).error = none →
      ∃ s : List FetchResult, s.IsSuffix script ∧
        (attemptFetch s).out = .ok (attemptFetchRetry n script).members ∧
        (attemptFetch s).pages = (attemptFetchRetry n script).pages := by
  intro n
  induction n with
  | zero =>
    intro script herr
    cases ho : (attemptFetch script).out with
    | ok m =>
      refine ⟨script, List.suffix_refl script, ?_, ?_⟩ <;>
        simp [attemptFetchRetry, ho]
    | fail msg => simp [attemptFetchRetry, ho] at herr
  | succ k ih =>
    intro script herr
    cases ho : (attemptFetch script).out with
    | ok m =>
      refine ⟨script, List.suffix_refl script, ?_, ?_⟩ <;>
        simp [attemptFetchRetry, ho]
    | fail msg =>
      have herr2 : (attemptFetchRetry k (attemptFetch script).rest).error = none := by
        simpa [attemptFetchRetry, ho] using herr
      obtain ⟨s, hsfx, hout, hpages⟩ := ih (attemptFetch script).rest herr2
      refine ⟨s, hsfx.trans (attemptFetch_rest_suffix script), ?_, ?_⟩ <;>
        simp [attemptFetchRetry, ho, hout, hpages]

lemma getCurrentPageMembers_shift (i : Nat) (ms : List MemberInfo) :
    getCurrentPageMembers (i + 2) ms =
      getCurrentPageMembers (i + 1) (ms.drop MEMBERS_PER_PAGE) := by
  unfold getCurrentPageMembers
  rw [List.drop_drop]
  have harith : (i + 2 - 1) * MEMBERS_PER_PAGE =
      MEMBERS_PER_PAGE + (i + 1 - 1) * MEMBERS_PER_PAGE := by
    simp only [MEMBERS_PER_PAGE]
    omega
  rw [harith]

lemma displayPages_flatten :
    ∀ (n : Nat) (ms : List MemberInfo), numDisplayPages ms = n →
      ((List.range n).map (fun i => getCurrentPageMembers (i + 1) ms)).flatten
        = ms := by
  intro n
  induction n with
  | zero =>
    intro ms h
    have h2 : (ms.length + (MEMBERS_PER_PAGE - 1)) / MEMBERS_PER_PAGE = 0 := h
    simp only [MEMBERS_PER_PAGE] at h2
    have hlen : ms.length = 0 := by omega
    simp [List.length_eq_zero.mp hlen]
  | succ k ih =>
    intro ms h
    have h2 : (ms.length + (MEMBERS_PER_PAGE - 1)) / MEMBERS_PER_PAGE = k + 1 := h
    have hdrop : numDisplayPages (ms.drop MEMBERS_PER_PAGE) = k := by
      show ((ms.drop MEMBERS_PER_PAGE).length + (MEMBERS_PER_PAGE - 1)) /
          MEMBERS_PER_PAGE = k
      rw [List.length_drop]
      simp only [MEMBERS_PER_PAGE] at h2 ⊢
      omega
    rw [List.range_succ_eq_map, List.map_cons, List.map_map, List.flatten_cons]
    have hshift :
        List.map ((fun i => getCurrentPageMembers (i + 1) ms) ∘ Nat.succ)
          (List.range k) =
        List.map (fun i => getCurrentPageMembers (i + 1)
          (ms.drop MEMBERS_PER_PAGE)) (List.range k) := by
      refine List.map_congr_left (fun i _ => ?_)
      show getCurrentPageMembers (i + 2) ms =
        getCurrentPageMembers (i + 1) (ms.drop MEMBERS_PER_PAGE)
      exact getCurrentPageMembers_shift i ms
    rw [hshift, ih _ hdrop]
    show (ms.drop ((1 - 1) * MEMBERS_PER_PAGE)).take MEMBERS_PER_PAGE ++
      ms.drop MEMBERS_PER_PAGE = ms
    simp only [Nat.sub_self, Nat.zero_mul, List.drop_zero]
    exact List.take_append_drop _ _

lemma getCurrentPageMembers_get (ms : List MemberInfo) (p j : Nat) :
    (getCurrentPageMembers p ms).get? j =
      if j < MEMBERS_PER_PAGE then ms.get? ((p - 1) * MEMBERS_PER_PAGE + j)
      else none := by
  unfold getCurrentPageMembers
  by_cases hj : j < MEMBERS_PER_PAGE
  · rw [if_pos hj, List.get?_take hj, List.get?_drop]
  · rw [if_neg hj]
    refine List.get?_eq_none.mpr ?_
    have := List.length_take_le MEMBERS_PER_PAGE
      (ms.drop ((p - 1) * MEMBERS_PER_PAGE))
    omega

lemma fetchPages_step_continue (total : Nat) (collected : List MemberInfo)
    (offset : Nat) (r : MembersResponse) (rest : List FetchResult)
    (hs : r.success = true) (hd : 0 < r.data.length) (hm : r.has_more = true) :
    (fetchPages total collected offset (.ok r :: rest)).out =
      (fetchPages total (collected ++ r.data) (offset + batchSize) rest).out := by
  simp [fetchPages, hs, hd, hm]

lemma fetchPages_step_lastPage (total : Nat) (collected : List MemberInfo)
    (offset : Nat) (r : MembersResponse) (rest : List FetchResult)
    (hs : r.success = true) (hd : 0 < r.data.length) (hm : r.has_more = false) :
    (fetchPages total collected offset (.ok r :: rest)).out =
      PassOut.ok (collected ++ r.data) := by
  simp [fetchPages, hs, hd, hm]

lemma fetchPages_step_empty (total : Nat) (collected : List MemberInfo)
    (offset : Nat) (r : MembersResponse) (rest : List FetchResult)
    (hs : r.success = true) (hd : r.data.length = 0) :
    (fetchPages total collected offset (.ok r :: rest)).out =
      PassOut.ok collected := by
  simp [fetchPages, hs, hd]

/-- Credential used to witness the cooldown-expiry invariant. -/
def credW : Credential :=
  { id := "w", status := .cooldown, error_count := 1, cooldown_until := some 5 }

/-! ### Claim theorems -/

/-- C1, counterexample: the claim bounds the total number of attempts by
`max_attempts = 3`, but on a script where every request fails the driver
executes 4 passes (1 initial + `maxRetries = 3` retries). -/
theorem claim_C1_counterexample :
    (fetchAllMembers scriptFail4).attempts = 4 ∧
    ¬ ((fetchAllMembers scriptFail4).attempts ≤ maxRetries) := by
  constructor <;> decide

/-- C1, amended: on a transient or unclassified member-fetch failure the
driver waits a fixed 2000 ms and restarts the whole fetch from scratch
(offset 0, empty collected set — the delivered members are those of a single
`attemptFetch` pass run on a suffix of the script); the total number of
attempts never exceeds `maxRetries + 1 = 4`. -/
theorem claim_C1_amended (script : List FetchResult) :
    (fetchAllMembers script).attempts ≤ maxRetries + 1 ∧
    (fetchAllMembers script).delays =
      List.replicate ((fetchAllMembers script).attempts - 1) retryDelayMs ∧
    ((fetchAllMembers script).error = none →
      ∃ s : List FetchResult, s.IsSuffix script ∧
        (attemptFetch s).out = PassOut.ok (fetchAllMembers script).members) := by
  refine ⟨?_, ?_, ?_⟩
  · simpa [fetchAllMembers] using attemptFetchRetry_attempts_le maxRetries script
  · simpa [fetchAllMembers] using attemptFetchRetry_delays maxRetries script
  · intro h
    have h2 : (attemptFetchRetry maxRetries script).error = none := by
      simpa [fetchAllMembers] using h
    obtain ⟨s, hsfx, hout, _⟩ := attemptFetchRetry_ok_src maxRetries script h2
    exact ⟨s, hsfx, by simpa [fetchAllMembers] using hout⟩

/-- Witness for C1 (amended) at the concrete script `scriptRecover`. -/
theorem claim_C1_witness :
    (fetchAllMembers scriptRecover).attempts ≤ maxRetries + 1 ∧
    ∃ s : List FetchResult, s.IsSuffix scriptRecover ∧
      (attemptFetch s).out = PassOut.ok (fetchAllMembers scriptRecover).members :=
  ⟨(claim_C1_amended scriptRecover).1,
   (claim_C1_amended scriptRecover).2.2 (by decide)⟩

/-- C2: every job ends with no error, or with a non-empty error message and
an empty delivered member list (all-or-nothing); concretely, a job failing
on attempts 1 and 2 and succeeding on attempt 3 delivers only attempt 3's
members, and a job exhausting all attempts delivers an empty list with a
non-empty message. -/
theorem claim_C2 :
    (∀ script : List FetchResult,
      (fetchAllMembers script).error = none ∨
      ∃ m, (fetchAllMembers script).error = some m ∧ m ≠ "" ∧
        (fetchAllMembers script).members = []) ∧
    ((fetchAllMembers scriptRecover).error = none ∧
      (fetchAllMembers scriptRecover).members = [mkMember 7] ∧
      (fetchAllMembers scriptRecover).attempts = 3) ∧
    ((fetchAllMembers scriptFail4).members = [] ∧
      (fetchAllMembers scriptFail4).error = some ("E4" ++ retrySuffix) ∧
      "E4" ++ retrySuffix ≠ "") := by
  refine ⟨?_, by decide, by decide⟩
  intro script
  simpa [fetchAllMembers] using attemptFetchRetry_allOrNothing maxRetries script

/-- C3, counterexample: on the 120-member, batch-50 scenario the per-page
progress sequence is not `41, 83, 100`. -/
theorem claim_C3_counterexample :
    (attemptFetch script120).out = PassOut.ok (memberBlock 0 120) ∧
    (attemptFetch script120).trace ≠ [41, 83, 100] := by
  constructor <;> decide

/-- C3, amended: with `total_count = 120` and `batch_size = 50` the progress
sequence computed after each successful page is exactly `42, 83, 100`
(`Math.round(50 / 120 * 100) = 42`). -/
theorem claim_C3_amended :
    (attemptFetch script120).trace = [42, 83, 100] ∧
    (fetchAllMembers script120).trace = [0, 42, 83, 100] := by
  constructor <;> decide

/-- C4: with the backend serving `has_more` per the spec formula, the driver
fetches a further page after a successful page response if and only if the
page length equals `batchSize` and, when the total count is known, the
advanced offset is still below it (observable as the single-response script
ending in a further, script-exhausting request). -/
theorem claim_C4 (d : List MemberInfo) (e : Option String) (tc : Option Nat)
    (total : Nat) (collected : List MemberInfo) (offset : Nat) :
    ((fetchPages total collected offset
        [FetchResult.ok
          { success := true, data := d, error := e, total_count := tc,
            has_more := hasMoreSpec d.length (offset + batchSize) tc }]).out
      = PassOut.fail netFailMsg)
    ↔ (d.length = batchSize ∧ ∀ t, tc = some t → offset + batchSize < t) := by
  by_cases h50 : d.length = batchSize
  · have hd0 : 0 < d.length := by
      have hb : batchSize = 50 := rfl
      omega
    cases tc with
    | none =>
      have hm : hasMoreSpec d.length (offset + batchSize) none = true := by
        simp [hasMoreSpec, h50]
      apply iff_of_true
      · rw [fetchPages_step_continue _ _ _ _ _ rfl hd0 hm]
        rfl
      · exact ⟨h50, fun t ht => by cases ht⟩
    | some t =>
      by_cases hlt : offset + batchSize < t
      · have hm : hasMoreSpec d.length (offset + batchSize) (some t) = true := by
          simp [hasMoreSpec, h50, hlt]
        apply iff_of_true
        · rw [fetchPages_step_continue _ _ _ _ _ rfl hd0 hm]
          rfl
        · refine ⟨h50, fun t' ht => ?_⟩
          rw [← Option.some.inj ht]
          exact hlt
      · have hm : hasMoreSpec d.length (offset + batchSize) (some t) = false := by
          simp [hasMoreSpec, h50, hlt]
        apply iff_of_false
        · rw [fetchPages_step_lastPage _ _ _ _ _ rfl hd0 hm]
          simp
        · rintro ⟨_, hall⟩
          exact hlt (hall t rfl)
  · have hm : hasMoreSpec d.length (offset + batchSize) tc = false := by
      simp [hasMoreSpec, h50]
    apply iff_of_false
    · by_cases hd0 : 0 < d.length
      · rw [fetchPages_step_lastPage _ _ _ _ _ rfl hd0 hm]
        simp
      · rw [fetchPages_step_empty _ _ _ _ _ rfl (show d.length = 0 by omega)]
        simp
    · rintro ⟨h1, _⟩
      exact h50 h1

/-- C5: if resolving the group reference fails with `EntityNotFound`, the
submission ends with the admin-rights message and issues no member-listing
request whatsoever. -/
theorem claim_C5 (script : List FetchResult) :
    (handleSubmit (parseGroupEndpoint ResolveOutcome.entityNotFound)
      script).error = some adminRightsMessage ∧
    (handleSubmit (parseGroupEndpoint ResolveOutcome.entityNotFound)
      script).memberRequests = 0 :=
  ⟨rfl, rfl⟩

/-- C6: on a successful enumeration the delivered member list is exactly the
concatenation of the fetched pages in pagination order (no deduplication),
and the page request offsets are exactly `0, 50, 100, ...` — each successful
non-empty page advanced the offset by `batchSize`. -/
theorem claim_C6 (script : List FetchResult)
    (h : (fetchAllMembers script).error = none) :
    (fetchAllMembers script).members =
      ((fetchAllMembers script).pages.map Prod.snd).flatten ∧
    (fetchAllMembers script).pages.map Prod.fst =
      (List.range (fetchAllMembers script).pages.length).map
        (fun i => batchSize * i) := by
  have h2 : (attemptFetchRetry maxRetries script).error = none := by
    simpa [fetchAllMembers] using h
  obtain ⟨s, _, hout, hpages⟩ := attemptFetchRetry_ok_src maxRetries script h2
  obtain ⟨h3, h4⟩ := attemptFetch_ok_spec s _ hout
  have hmem : (fetchAllMembers script).members =
      (attemptFetchRetry maxRetries script).members := rfl
  have hpg : (fetchAllMembers script).pages =
      (attemptFetchRetry maxRetries script).pages := rfl
  rw [hmem, hpg, ← hpages]
  exact ⟨h3, h4⟩

/-- Witness for C6 at the concrete script `script120`. -/
theorem claim_C6_witness :
    (fetchAllMembers script120).members =
      ((fetchAllMembers script120).pages.map Prod.snd).flatten ∧
    (fetchAllMembers script120).pages.map Prod.fst =
      (List.range (fetchAllMembers script120).pages.length).map
        (fun i => batchSize * i) :=
  claim_C6 script120 (by decide)

/-- C7: for a well-formed credential, the status observed through lazy
expiry is `Available` iff `cooldown_until` is absent or has elapsed
(`≤ now`); well-formedness is preserved by expiry and by `release` with
every outcome, `acquire` reads exactly the snapshot, and the snapshot
carries the expiry-applied credential. -/
theorem claim_C7 (now : Nat) (c : Credential) (hwf : CredWF c) :
    (((applyExpiry now c).status = CredStatus.available) ↔
      (c.cooldown_until = none ∨ ∃ t, c.cooldown_until = some t ∧ t ≤ now))
    ∧ CredWF (applyExpiry now c)
    ∧ (∀ o : ReleaseOutcome, CredWF (releaseCred now o c))
    ∧ (∀ pool : List Credential, (acquire now pool).2 = snapshot now pool)
    ∧ (∀ pool : List Credential, c ∈ pool →
        applyExpiry now c ∈ snapshot now pool) := by
  obtain ⟨hav, hcd⟩ := hwf
  refine ⟨?_, ?_, ?_, fun pool => rfl, fun pool hc => List.mem_map_of_mem _ hc⟩
  · cases hcu : c.cooldown_until with
    | none =>
      have hst : c.status = CredStatus.available := by
        cases hst : c.status with
        | available => rfl
        | cooldown => exact absurd hcu (hcd hst)
      simp [applyExpiry, hcu, hst]
    | some t =>
      by_cases hle : t ≤ now
      · simp only [applyExpiry, hcu, hle, if_true]
        constructor
        · intro _
          exact Or.inr ⟨t, rfl, hle⟩
        · intro _
          trivial
      · have hst : c.status = CredStatus.cooldown := by
          cases hst : c.status with
          | available => exact absurd (hav hst) (by simp [hcu])
          | cooldown => rfl
        simp [applyExpiry, hcu, hle, hst]
  · cases hcu : c.cooldown_until with
    | none =>
      simp only [applyExpiry, hcu]
      exact ⟨hav, hcd⟩
    | some t =>
      by_cases hle : t ≤ now
      · simp [applyExpiry, hcu, hle, CredWF]
      · simp only [applyExpiry, hcu, hle, if_false]
        exact ⟨hav, hcd⟩
  · intro o
    cases o with
    | success => simp [releaseCred, CredWF]
    | rateLimited ra => simp [releaseCred, CredWF]
    | error =>
      by_cases hth : errorThreshold < c.error_count + 1
      · simp [releaseCred, hth, CredWF]
      · simp only [releaseCred, hth, if_false, CredWF]
        exact ⟨hav, hcd⟩

/-- Witness for C7 at a concrete cooled-down credential observed after its
cooldown has elapsed. -/
theorem claim_C7_witness :
    CredWF credW ∧
    (((applyExpiry 10 credW).status = CredStatus.available) ↔
      (credW.cooldown_until = none ∨
        ∃ t, credW.cooldown_until = some t ∧ t ≤ 10)) :=
  ⟨by decide, (claim_C7 10 credW (by decide)).1⟩

/-- C8: `GetPoolStatus` reports `total_tokens` as the configured credential
count regardless of cooldowns (pool size is invariant under release and
acquire), `active_tokens` counts the credentials `Available` after lazy
expiry, and with two credentials whose cooldowns lie in the past it reports
`active_tokens = 2`. -/
theorem claim_C8 :
    (∀ (now : Nat) (pool : List Credential),
      (getPoolStatus now pool).total_tokens = pool.length) ∧
    (∀ (now : Nat) (cid : String) (o : ReleaseOutcome) (pool : List Credential),
      (releasePool now cid o pool).length = pool.length) ∧
    (∀ (now : Nat) (pool : List Credential),
      (acquire now pool).2.length = pool.length) ∧
    (∀ (now : Nat) (pool : List Credential),
      (getPoolStatus now pool).active_tokens =
        ((snapshot now pool).filter
          (fun c => c.status == CredStatus.available)).length) ∧
    (getPoolStatus 100 [credPastA, credPastB]).active_tokens = 2 ∧
    (getPoolStatus 100 [credPastA, credPastB]).total_tokens = 2 := by
  refine ⟨fun now pool => rfl, ?_, ?_, ?_, by decide, by decide⟩
  · intro now cid o pool
    simp [releasePool]
  · intro now pool
    simp [acquire, snapshot]
  · intro now pool
    simp [getPoolStatus, List.countP_eq_length_filter]

/-- C9: every progress value exposed during fetching lies in `[0, 100]`
(the model uses naturals, so non-negativity is structural; the upper bound
holds for every response script, including absent or zero `total_count`). -/
theorem claim_C9 (script : List FetchResult) (p : Nat)
    (hp : p ∈ (fetchAllMembers script).trace) : p ≤ 100 := by
  have hcons : (fetchAllMembers script).trace =
      0 :: (attemptFetchRetry maxRetries script).trace := rfl
  rw [hcons] at hp
  rcases List.mem_cons.mp hp with h | h
  · omega
  · exact attemptFetchRetry_trace_le maxRetries script p h

/-- Witness for C9 at the concrete script `script120` and the recorded
progress value 42. -/
theorem claim_C9_witness :
    42 ∈ (fetchAllMembers script120).trace ∧ 42 ≤ 100 :=
  ⟨by decide, claim_C9 script120 42 (by decide)⟩

/-- C10: `getCurrentPageMembers` returns exactly the slice of `allMembers`
from index `(p − 1) * 50` up to but excluding `p * 50` (as an index-wise
characterisation), and concatenating pages `1 .. ceil(n / 50)` reproduces
`allMembers` exactly — no member repeated or dropped. -/
theorem claim_C10 :
    (∀ (ms : List MemberInfo) (p j : Nat),
      (getCurrentPageMembers p ms).get? j =
        if j < MEMBERS_PER_PAGE then ms.get? ((p - 1) * MEMBERS_PER_PAGE + j)
        else none) ∧
    (∀ ms : List MemberInfo,
      ((List.range (numDisplayPages ms)).map
        (fun i => getCurrentPageMembers (i + 1) ms)).flatten = ms) :=
  ⟨getCurrentPageMembers_get,
   fun ms => displayPages_flatten (numDisplayPages ms) ms rfl⟩

end TgParse
